import Mathlib

/-!
# Verification of the WooCommerce Go client request core

Shallow embedding of the request/transport/pagination/error layer of the
`woocommerce` Go package (`client.go`-style file of the repository).  Pure
functions of the source are translated into Lean functions; the stateful
retry loop of `Client.doGetHeaders` becomes a fuel-free recursion driven by
the local `retries` variable, exactly as in the source; the effect of the
HTTP round trip of attempt `k` is abstracted as an oracle
`send : Nat → Except String Response`, where `.error e` models
`c.Client.Do(req)` returning a non-nil Go error (no HTTP response) and
`.ok r` models a received response.

Library calls of the Go standard library that the source merely invokes
(`encoding/json.Unmarshal`, `strconv.ParseFloat`, `strconv.Atoi`,
`net/url.Parse`, `encoding/base64`) are embedded as explicit Lean functions
or, for JSON unmarshalling, as a small outcome datatype, so that every
branch of the repository's own code is represented.
-/

namespace Woo

/-- Outcome of `io.ReadAll` + `json.Unmarshal` on a response body, as consumed
by `CheckResponseError`.  `empty` means `len(bodyBytes) == 0`; `jsonParsed
code message` means the non-empty body unmarshalled into the anonymous
struct `{Code, Message, Data}` with the given `code` and `message` fields
(the `Data interface{}` field is never read by the source and is omitted);
`invalidJson raw errMsg` means a non-empty body `raw` on which
`json.Unmarshal` failed with error text `errMsg`. -/
inductive GoBody where
  | empty : GoBody
  | jsonParsed (code message : String) : GoBody
  | invalidJson (raw errMsg : String) : GoBody
deriving DecidableEq, Repr

/-- An HTTP response as seen by `CheckResponseError` and the retry loop:
`statusCode` is `resp.StatusCode`, `body` the unmarshalling outcome of its
body, and `retryAfterHeader` the value of `r.Header.Get("Retry-After")`
(Go's `Header.Get` returns `""` when the header is absent). -/
structure Response where
  statusCode : Int
  body : GoBody
  retryAfterHeader : String
deriving DecidableEq, Repr

/-- Mirror of the Go struct `ResponseError {Status int; Message string;
Data []string}`. -/
structure ResponseError where
  status : Int
  message : String
  data : List String
deriving DecidableEq, Repr

/-- The closed set of error values the classifier can produce: `ResponseError`,
`RateLimitError` (which embeds a `ResponseError` and adds `RetryAfter int`),
and `ResponseDecodingError {Body, Message, Status}` (`Body` kept as the raw
body string). -/
inductive RespErr where
  | responseError (e : ResponseError) : RespErr
  | rateLimitError (e : ResponseError) (retryAfter : Int) : RespErr
  | responseDecodingError (body : String) (message : String) (status : Int) : RespErr
deriving DecidableEq, Repr

/-- The Go type assertion `respErr.(RateLimitError)` used by the retry loop. -/
def isRateLimit : RespErr → Bool
  | .rateLimitError _ _ => true
  | _ => false

/-- Digit run to a number, used by the numeric-parsing models below. -/
def digitsToNat (l : List Char) : Nat :=
  l.foldl (fun a c => a * 10 + (c.toNat - '0'.toNat)) 0

/-- Model of `int(f)` for `f, _ := strconv.ParseFloat(s, 64)` on plain decimal
literals: an optional sign, an integer part and an optional fractional part;
`int` truncates toward zero, so the result is the signed integer part.  On
any other input (`ParseFloat` failing, and, outside this model's scope,
exponent/hex forms the source never receives) the Go code keeps `f = 0`, so
the function returns `0`. -/
def goParseFloatTrunc (s : String) : Int :=
  let signRest : Int × List Char :=
    match s.toList with
    | '+' :: r => (1, r)
    | '-' :: r => (-1, r)
    | r => (1, r)
  let intPart := signRest.2.takeWhile Char.isDigit
  let rest := signRest.2.dropWhile Char.isDigit
  match rest with
  | [] => if intPart = [] then 0 else signRest.1 * (digitsToNat intPart : Int)
  | '.' :: frac =>
      if frac.all Char.isDigit ∧ (intPart ≠ [] ∨ frac ≠ []) then
        signRest.1 * (digitsToNat intPart : Int)
      else 0
  | _ => 0

/-- Model of `net/http.StatusText` restricted to the status codes the embedded
code branches on; the source only ever applies it to 406. -/
def statusText (code : Int) : String :=
  if code = 406 then "Not Acceptable"
  else if code = 429 then "Too Many Requests"
  else if code = 503 then "Service Unavailable"
  else ""

/-- `wrapSpecificError` of the source: a 429 status is upgraded to
`RateLimitError` with `RetryAfter = int(ParseFloat(r.Header.Get("Retry-After")))`;
a 406 status has its message overwritten with `http.StatusText(406)`;
everything else is returned unchanged. -/
def wrapSpecificError (r : Response) (err : ResponseError) : RespErr :=
  if err.status = 429 then
    .rateLimitError err (goParseFloatTrunc r.retryAfterHeader)
  else if err.status = 406 then
    .responseError { err with message := statusText err.status }
  else
    .responseError err

/-- `CheckResponseError` of the source.  2xx statuses are no error.  A
non-empty body that unmarshals returns a bare `ResponseError` with the body's
message (this early return bypasses `wrapSpecificError`); a non-empty body
that fails to unmarshal returns `ResponseDecodingError` carrying the body and
the unmarshal error.  Only the empty-body path reaches `wrapSpecificError`
(in the source both the `Message == ""` branch and its dead complement call
it with the same arguments). -/
def CheckResponseError (r : Response) : Option RespErr :=
  if 200 ≤ r.statusCode ∧ r.statusCode < 300 then
    none
  else
    match r.body with
    | .jsonParsed _ msg =>
        some (.responseError { status := r.statusCode, message := msg, data := [] })
    | .invalidJson raw errMsg =>
        some (.responseDecodingError raw errMsg r.statusCode)
    | .empty =>
        some (wrapSpecificError r { status := r.statusCode, message := "", data := [] })

/-- Outcome of one call to `doGetHeaders`, with the number of loop iterations
(`c.attempts` at exit) recorded: success with the final response, a raw
transport error returned verbatim from `c.Client.Do`, or a classified API
error. -/
inductive DoResult where
  | ok (resp : Response) (attempts : Nat) : DoResult
  | transportError (msg : String) (attempts : Nat) : DoResult
  | apiError (e : RespErr) (attempts : Nat) : DoResult
deriving DecidableEq, Repr

/-- The `for` loop of `Client.doGetHeaders`, lines 155–200 of the source.
`retries` is the local variable initialised from `c.retries`; `attempt` is
the number of attempts already performed (the next attempt is `send attempt`).
Each iteration: send; a transport error returns immediately; a nil
classification breaks with success; otherwise, if `retries <= 1` the error is
returned; a `RateLimitError` sleeps (time is not modelled) and retries with
`retries-1`; a 503 status retries with `retries-1`; anything else returns the
error. -/
def doLoop (send : Nat → Except String Response) (retries : Int) (attempt : Nat) : DoResult :=
  match send attempt with
  | .error e => .transportError e (attempt + 1)
  | .ok resp =>
    match CheckResponseError resp with
    | none => .ok resp (attempt + 1)
    | some respErr =>
      if retries ≤ 1 then
        .apiError respErr (attempt + 1)
      else if isRateLimit respErr then
        doLoop send (retries - 1) (attempt + 1)
      else if resp.statusCode = 503 then
        doLoop send (retries - 1) (attempt + 1)
      else
        .apiError respErr (attempt + 1)
termination_by (retries - 1).toNat
decreasing_by
  all_goals omega

/-- `Client.doGetHeaders` after the authentication step: resets the attempt
counter and runs the retry loop with the local copy of `c.retries`. -/
def doGetHeaders (retriesCfg : Int) (send : Nat → Except String Response) : DoResult :=
  doLoop send retriesCfg 0

/-- Computation mirror of `doLoop` in which the Go `retries` variable is
represented by the non-negative budget `(retries - 1).toNat` (so `retries <= 1`
becomes `budget = 0`, and the `retries--` of a retry branch becomes the
predecessor); structural recursion on the budget keeps the function
kernel-evaluable.  `doLoop_eq_doLoopB` proves it extensionally equal to the
direct translation. -/
def doLoopB (send : Nat → Except String Response) (budget : Nat) (attempt : Nat) : DoResult :=
  match send attempt with
  | .error e => .transportError e (attempt + 1)
  | .ok resp =>
    match CheckResponseError resp with
    | none => .ok resp (attempt + 1)
    | some respErr =>
      match budget with
      | 0 => .apiError respErr (attempt + 1)
      | b + 1 =>
        if isRateLimit respErr then doLoopB send b (attempt + 1)
        else if resp.statusCode = 503 then doLoopB send b (attempt + 1)
        else .apiError respErr (attempt + 1)

/-- The credential pair of the `App` struct; the remaining `App` fields
(`AppName`, `UserId`, `Scope`, …) are never read by the request core. -/
structure App where
  customerKey : String
  customerSecret : String
deriving DecidableEq, Repr

/-- A request URL reduced to the parts the authentication step reads and
writes: its scheme and its query, the latter as an ordered list of
key–value pairs (Go's `url.Values` re-encoding sorts keys, which is
immaterial to which pairs are present). -/
structure URL where
  scheme : String
  query : List (String × String)
deriving DecidableEq, Repr

/-- `url.Values.Set k v`: all existing values of `k` are replaced by the
single value `v`. -/
def setParam (q : List (String × String)) (k v : String) : List (String × String) :=
  q.filter (fun p => p.1 ≠ k) ++ [(k, v)]

/-- All values of key `k` in a query, in order (Go `url.Values[k]`). -/
def getAllParams (q : List (String × String)) (k : String) : List String :=
  (q.filter (fun p => p.1 = k)).map (fun p => p.2)

/-- State of `c.Client`: the plain `http.Client` installed by `NewClient`, or
the OAuth1 signing client installed by the non-https branch of
`doGetHeaders`, which signs each request with the credential pair as key. -/
inductive Transport where
  | plain : Transport
  | oauthSigning (key secret : String) : Transport
deriving DecidableEq, Repr

/-- Lines 139–154 of the source, the per-request authentication step in
`doGetHeaders`: on an `https` URL, `consumer_key` and `consumer_secret` are
`Set` on the query and the transport is left as it was; on any other scheme
the query is untouched and `c.Client` is replaced by the OAuth1 signing
client keyed by the credential pair. -/
def authStep (app : App) (u : URL) (t : Transport) : URL × Transport :=
  if u.scheme = "https" then
    ({ u with
        query := setParam (setParam u.query "consumer_key" app.customerKey)
          "consumer_secret" app.customerSecret }, t)
  else
    (u, .oauthSigning app.customerKey app.customerSecret)

/-- The standard base64 alphabet of `encoding/base64.StdEncoding`, as used by
`net/http.Request.SetBasicAuth`. -/
def b64Char (n : Nat) : Char :=
  "ABCDEFGHIJKLMNOPQRSTUVWXYZabcdefghijklmnopqrstuvwxyz0123456789+/".toList.getD n 'A'

/-- Standard base64 of a byte list, with `=` padding. -/
def base64Encode : List Nat → String
  | [] => ""
  | [a] =>
      String.mk [b64Char (a / 4), b64Char (a % 4 * 16)] ++ "=="
  | [a, b] =>
      String.mk [b64Char (a / 4), b64Char (a % 4 * 16 + b / 16), b64Char (b % 16 * 4)] ++ "="
  | a :: b :: c :: rest =>
      String.mk [b64Char (a / 4), b64Char (a % 4 * 16 + b / 16),
        b64Char (b % 16 * 4 + c / 64), b64Char (c % 64)] ++ base64Encode rest

/-- Byte sequence of a string; credentials in this development are ASCII, for
which UTF-8 bytes coincide with code points. -/
def strBytes (s : String) : List Nat :=
  s.toList.map Char.toNat

/-- `req.SetBasicAuth(user, pass)`: the `Authorization` header value
`"Basic " + base64(user + ":" + pass)`. -/
def basicAuthHeader (user pass : String) : String :=
  "Basic " ++ base64Encode (strBytes (user ++ ":" ++ pass))

/-- A built request reduced to what `NewRequest` produces and the claims
inspect: the resolved URL and the header list. -/
structure Request where
  url : URL
  headers : List (String × String)
deriving DecidableEq, Repr

/-- Header stamping of `Client.NewRequest` (lines 435–444 of the source); the
URL-resolution and query-struct encoding that precede it are abstracted into
the already-resolved `u`.  `SetBasicAuth` is called on every request,
whatever the scheme. -/
def NewRequest (app : App) (u : URL) : Request :=
  { url := u
    headers :=
      [("Content-Type", "application/json"),
       ("Accept", "application/json"),
       ("User-Agent", "woocommerce/1.0.0"),
       ("Authorization", basicAuthHeader app.customerKey app.customerSecret)] }

/-- Go `http.Header.Get`: first value of the key, `""` when absent. -/
def headerGet (hs : List (String × String)) (k : String) : String :=
  match hs.find? (fun p => p.1 = k) with
  | some p => p.2
  | none => ""

/-- Reading of claim C6 taken from the spec's words ("no cleartext secret
appears in the built request … credentials are used only as the signing
key"): if that held, the request built for a given key and URL would not
depend on the secret at all. -/
def specRequestIndependentOfSecret (key : String) (u : URL) : Prop :=
  ∀ s1 s2 : String, NewRequest ⟨key, s1⟩ u = NewRequest ⟨key, s2⟩ u

/-- Split a character list at the first occurrence of `c`: `some (before,
after)` with the separator dropped, `none` when `c` does not occur. -/
def splitUntil (c : Char) : List Char → Option (List Char × List Char)
  | [] => none
  | x :: rest =>
    if x = c then some ([], rest)
    else
      match splitUntil c rest with
      | some (a, b) => some (x :: a, b)
      | none => none

/-- Fuel-driven worker for `splitOnChar`; the fuel is an upper bound on the
number of separators, so starting it at the list length makes the guard
unreachable. -/
def splitOnCharFuel (c : Char) : Nat → List Char → List (List Char)
  | 0, l => [l]
  | fuel + 1, l =>
    match splitUntil c l with
    | some (a, b) => a :: splitOnCharFuel c fuel b
    | none => [l]

/-- Go `strings.Split` on a one-character separator: the pieces between the
occurrences of `c`, one more piece than separators. -/
def splitOnChar (c : Char) (l : List Char) : List (List Char) :=
  splitOnCharFuel c l.length l

/-- Leading-space stripping, the `^ *` of the link regex. -/
def dropSpaces : List Char → List Char
  | ' ' :: rest => dropSpaces rest
  | l => l

/-- The four relation names admitted by the link regex alternation. -/
def relWords : List String := ["prev", "next", "first", "last"]

/-- Matcher for `linkRegex = ^ *<([^>]+)>; rel="(prev|next|first|last)" *$`:
optional leading spaces, `<`, a non-empty URL part free of `>`, `>`, the
literal `; rel="`, one of the four relation words, `"`, and only spaces to
the end.  Returns the two capture groups.  (Since `[^>]+` cannot cross a
`>`, the terminating `>` is the first one, and since none of the relation
words contains `"`, taking the group up to the first `"` is exact.) -/
def matchLink (s : List Char) : Option (List Char × List Char) :=
  match dropSpaces s with
  | '<' :: rest =>
    (match splitUntil '>' rest with
     | some (url, rest2) =>
       if url ≠ [] ∧ rest2.take 7 = "; rel=\"".toList then
         match splitUntil '"' (rest2.drop 7) with
         | some (rel, rest4) =>
           if relWords.contains (String.mk rel) ∧ rest4.all (fun c => c = ' ') then
             some (url, rel)
           else none
         | none => none
       else none
     | none => none)
  | _ => none

/-- `linkRegex.FindStringSubmatch(link)`: on a match, the full match (the
regex is anchored, so the whole string) followed by the two capture groups —
three entries; on no match, the empty list (Go returns `nil`). -/
def linkRegexMatch (s : String) : List String :=
  match matchLink s.toList with
  | some (url, rel) => [s, String.mk url, String.mk rel]
  | none => []

/-- The `Page` field of `ListOptions`; the other list-option fields are never
written by `extractPagination` and stay at their zero values, so only the
page is carried. -/
structure ListOptions where
  page : Int := 0
deriving DecidableEq, Repr

/-- `Pagination`: the four optional page descriptors. -/
structure Pagination where
  nextPageOptions : Option ListOptions := none
  previousPageOptions : Option ListOptions := none
  firstPageOptions : Option ListOptions := none
  lastPageOptions : Option ListOptions := none
deriving DecidableEq, Repr

/-- Errors `extractPagination` can return: the `ResponseDecodingError` values
it constructs itself, and the `strconv` error that `strconv.Atoi` would
propagate. -/
inductive PagError where
  | responseDecodingError (body message : String) (status : Int) : PagError
  | numError (fn input : String) : PagError
deriving DecidableEq, Repr

/-- `strconv.Atoi`: optional sign then at least one digit, nothing else
(integer overflow of 64-bit Go ints is not modelled; the pages in play are
small). -/
def goAtoi (s : String) : Option Int :=
  match s.toList with
  | [] => none
  | '+' :: ds => if ds ≠ [] ∧ ds.all Char.isDigit then some (digitsToNat ds) else none
  | '-' :: ds => if ds ≠ [] ∧ ds.all Char.isDigit then some (-(digitsToNat ds : Int)) else none
  | ds => if ds.all Char.isDigit then some ((digitsToNat ds : Int)) else none

/-- `url.Parse(u).RawQuery`: the part after the first `?`, with any
`#`-fragment first split off; `""` when there is no query. -/
def urlRawQuery (u : String) : String :=
  let noFrag :=
    match splitUntil '#' u.toList with
    | some (a, _) => a
    | none => u.toList
  match splitUntil '?' noFrag with
  | some (_, q) => String.mk q
  | none => ""

/-- `url.ParseQuery`: split on `&`, skip empty components, cut each component
at its first `=` (a component without `=` is a key with empty value).
Percent-decoding is not modelled; the pagination URLs in play contain no
escapes. -/
def parseQuery (s : String) : List (String × String) :=
  (splitOnChar '&' s.toList).filterMap (fun comp =>
    if comp = [] then none
    else
      match splitUntil '=' comp with
      | some (k, v) => some (String.mk k, String.mk v)
      | none => some (String.mk comp, ""))

/-- `url.Values.Get k`: first value of the key, `""` when absent. -/
def queryGet (q : List (String × String)) (k : String) : String :=
  match q.find? (fun p => p.1 = k) with
  | some p => p.2
  | none => ""

/-- Body of the `for _, link := range strings.Split(linkHeader, ",")` loop of
`extractPagination`, for one entry.  `expected` is the submatch-slice length
the guard `if len(match) != expected` demands (the source writes the literal
`4`).  After the guard: `url.Parse(match[1])` (which cannot fail on the
URL-shaped strings this model represents, so its error branch — message
"pagination does not contain a valid URL" — is not reachable here),
`ParseQuery` on its `RawQuery`, `Atoi` of a non-empty `page` parameter, and
assignment of the descriptor to the slot named by `match[2]` (other relation
names fall through the `switch` leaving the aggregate unchanged). -/
def extractPaginationStep (expected : Nat) (pagination : Pagination) (link : String) :
    Except PagError Pagination :=
  let m := linkRegexMatch link
  if m.length ≠ expected then
    .error (.responseDecodingError "" "could not extract pagination link header" 0)
  else
    let urlStr := m.getD 1 ""
    let params := parseQuery (urlRawQuery urlStr)
    let page := queryGet params "page"
    let pageResult : Except PagError ListOptions :=
      if page ≠ "" then
        match goAtoi page with
        | some n => .ok { page := n }
        | none => .error (.numError "Atoi" page)
      else .ok {}
    match pageResult with
    | .error e => .error e
    | .ok paginationListOptions =>
      match m.getD 2 "" with
      | "next" => .ok { pagination with nextPageOptions := some paginationListOptions }
      | "prev" => .ok { pagination with previousPageOptions := some paginationListOptions }
      | "first" => .ok { pagination with firstPageOptions := some paginationListOptions }
      | "last" => .ok { pagination with lastPageOptions := some paginationListOptions }
      | _ => .ok pagination

/-- The entry loop of `extractPagination`: entries processed in order, the
first error aborting the whole parse. -/
def extractPaginationList (expected : Nat) : List String → Pagination → Except PagError Pagination
  | [], p => .ok p
  | link :: rest, p =>
    match extractPaginationStep expected p link with
    | .error e => .error e
    | .ok p2 => extractPaginationList expected rest p2

/-- `extractPagination` up to the choice of the guard arity: empty header is
an empty aggregate with no error, otherwise the header is split on `,` and
each entry processed. -/
def extractPaginationCore (expected : Nat) (linkHeader : String) : Except PagError Pagination :=
  if linkHeader = "" then .ok {}
  else extractPaginationList expected ((splitOnChar ',' linkHeader.toList).map String.mk) {}

/-- `extractPagination` as written in the source: the guard compares
`len(match)` against the literal `4`, although `FindStringSubmatch` on a
two-group regex returns 3 entries (full match plus two groups) — the
source's own comment above the guard reads "We expect 3 values". -/
def extractPagination (linkHeader : String) : Except PagError Pagination :=
  extractPaginationCore 4 linkHeader

/-- Modelled from the spec and from the source's own in-function comment ("We
expect 3 values: match[0] = full match, match[1] is the URL and match[2] is
either 'previous' or 'next', 'first', 'last'"): the same function with the
guard at the 3-entry arity `FindStringSubmatch` actually produces.  Used to
exhibit what the slip in the literal changes. -/
def extractPaginationFixed (linkHeader : String) : Except PagError Pagination :=
  extractPaginationCore 3 linkHeader

/-- Control point of one in-flight `doGetHeaders` call: about to run the
prologue (`retries := c.retries; c.attempts = 0`), inside the `for` loop, or
finished with a result. -/
inductive CallPhase where
  | ready : CallPhase
  | looping : CallPhase
  | finished (r : DoResult) : CallPhase
deriving DecidableEq, Repr

/-- The call-scoped state of one `doGetHeaders` execution: the local
`retries` variable, the index of the next attempt (which selects the
response the call's endpoint oracle produces), and the control point.
Nothing in here is shared between calls. -/
structure CallLocal where
  retries : Int
  attemptIdx : Nat
  phase : CallPhase
deriving DecidableEq, Repr

/-- One iteration of the retry loop as a single transition on the
call-scoped state; the branch structure is that of `doLoop`. -/
def iterStep (send : Nat → Except String Response) (retries : Int) (idx : Nat) : CallLocal :=
  match send idx with
  | .error e => ⟨retries, idx + 1, .finished (.transportError e (idx + 1))⟩
  | .ok resp =>
    match CheckResponseError resp with
    | none => ⟨retries, idx + 1, .finished (.ok resp (idx + 1))⟩
    | some respErr =>
      if retries ≤ 1 then ⟨retries, idx + 1, .finished (.apiError respErr (idx + 1))⟩
      else if isRateLimit respErr then ⟨retries - 1, idx + 1, .looping⟩
      else if resp.statusCode = 503 then ⟨retries - 1, idx + 1, .looping⟩
      else ⟨retries, idx + 1, .finished (.apiError respErr (idx + 1))⟩

/-- One atomic step of a call: the prologue snapshots the read-only
`c.retries` configuration into the local variable, a looping call runs one
iteration, a finished call does nothing.  Only `cfgRetries` (read-only
configuration) and the call's own local state are consulted. -/
def callStep (cfgRetries : Int) (send : Nat → Except String Response) (cl : CallLocal) : CallLocal :=
  match cl.phase with
  | .ready => ⟨cfgRetries, 0, .looping⟩
  | .looping => iterStep send cl.retries cl.attemptIdx
  | .finished _ => cl

/-- The write each step performs on the client-scoped `c.attempts` field:
the prologue stores 0, each iteration increments (`c.attempts++`), a
finished call leaves it alone.  The field is written by every concurrent
call of the same client but read by none of the loop's decisions. -/
def sharedStep (cl : CallLocal) (shared : Int) : Int :=
  match cl.phase with
  | .ready => 0
  | .looping => shared + 1
  | .finished _ => shared

/-- Joint state of two concurrent calls on one client: the shared
`c.attempts` field and the two call-scoped states. -/
structure SysState where
  sharedAttempts : Int
  call1 : CallLocal
  call2 : CallLocal
deriving DecidableEq, Repr

/-- One scheduler step: `true` lets call 1 take its next atomic step,
`false` lets call 2; the chosen call also applies its write to the shared
`c.attempts` field. -/
def sysStep (cfg1 cfg2 : Int) (send1 send2 : Nat → Except String Response)
    (which : Bool) (s : SysState) : SysState :=
  if which then
    { s with
        sharedAttempts := sharedStep s.call1 s.sharedAttempts
        call1 := callStep cfg1 send1 s.call1 }
  else
    { s with
        sharedAttempts := sharedStep s.call2 s.sharedAttempts
        call2 := callStep cfg2 send2 s.call2 }

/-- Run a whole schedule (an arbitrary interleaving of the two calls). -/
def runSched (cfg1 cfg2 : Int) (send1 send2 : Nat → Except String Response) :
    List Bool → SysState → SysState
  | [], s => s
  | b :: rest, s => runSched cfg1 cfg2 send1 send2 rest (sysStep cfg1 cfg2 send1 send2 b s)

/-- A call that has not started yet. -/
def initCall : CallLocal := ⟨0, 0, .ready⟩

/-- Initial joint state: neither call has started. -/
def initSys : SysState := ⟨0, initCall, initCall⟩

/-- Solo execution of one call: `n` atomic steps in isolation. -/
def soloRun (cfg : Int) (send : Nat → Except String Response) : Nat → CallLocal → CallLocal
  | 0, cl => cl
  | n + 1, cl => soloRun cfg send n (callStep cfg send cl)

/-! ## General lemmas about the classifier and the retry loop -/

theorem doLoopB_succ_eq (send : Nat → Except String Response) (b attempt : Nat) :
    doLoopB send (b + 1) attempt =
      match send attempt with
      | .error e => .transportError e (attempt + 1)
      | .ok resp =>
        match CheckResponseError resp with
        | none => .ok resp (attempt + 1)
        | some respErr =>
          if isRateLimit respErr then doLoopB send b (attempt + 1)
          else if resp.statusCode = 503 then doLoopB send b (attempt + 1)
          else .apiError respErr (attempt + 1) := by
  rw [doLoopB]

theorem checkResponseError_not2xx (r : Response)
    (h : ¬(200 ≤ r.statusCode ∧ r.statusCode < 300)) :
    ∃ e, CheckResponseError r = some e := by
  unfold CheckResponseError
  rw [if_neg h]
  cases hb : r.body <;> exact ⟨_, rfl⟩

theorem doLoop_eq_doLoopB (send : Nat → Except String Response) :
    ∀ (budget : Nat) (retries : Int) (attempt : Nat), (retries - 1).toNat = budget →
      doLoop send retries attempt = doLoopB send budget attempt := by
  intro budget
  induction budget with
  | zero =>
    intro retries attempt h
    cases hs : send attempt with
    | error e => rw [doLoop, hs, doLoopB, hs]
    | ok resp =>
      cases hc : CheckResponseError resp with
      | none => rw [doLoop, hs, doLoopB, hs]; simp only [hc]
      | some err =>
        rw [doLoop, hs, doLoopB, hs]
        simp only [hc]
        rw [if_pos (show retries ≤ 1 by omega)]
  | succ b ih =>
    intro retries attempt h
    cases hs : send attempt with
    | error e => rw [doLoop, hs, doLoopB, hs]
    | ok resp =>
      cases hc : CheckResponseError resp with
      | none => rw [doLoop, hs, doLoopB, hs]; simp only [hc]
      | some err =>
        rw [doLoop, hs, doLoopB, hs]
        simp only [hc]
        rw [if_neg (show ¬retries ≤ 1 by omega)]
        by_cases hrl : isRateLimit err = true
        · rw [if_pos hrl, if_pos hrl]
          exact ih (retries - 1) (attempt + 1) (by omega)
        · rw [if_neg hrl, if_neg hrl]
          by_cases h503 : resp.statusCode = 503
          · rw [if_pos h503, if_pos h503]
            exact ih (retries - 1) (attempt + 1) (by omega)
          · rw [if_neg h503, if_neg h503]

theorem doGetHeaders_eq_doLoopB (retriesCfg : Int) (send : Nat → Except String Response) :
    doGetHeaders retriesCfg send = doLoopB send (retriesCfg - 1).toNat 0 :=
  doLoop_eq_doLoopB send (retriesCfg - 1).toNat retriesCfg 0 rfl

/-- On an endpoint answering 503 on every attempt, the budget-form loop spends
its whole budget and returns the classification of the last response. -/
theorem doLoopB_all503 (send : Nat → Except String Response) (resps : Nat → Response)
    (hok : ∀ k, send k = .ok (resps k)) (h503 : ∀ k, (resps k).statusCode = 503) :
    ∀ (budget attempt : Nat), ∃ e,
      doLoopB send budget attempt = .apiError e (attempt + budget + 1) ∧
      CheckResponseError (resps (attempt + budget)) = some e := by
  intro budget
  induction budget with
  | zero =>
    intro attempt
    obtain ⟨e, he⟩ := checkResponseError_not2xx (resps attempt)
      (by rw [h503 attempt]; decide)
    refine ⟨e, ?_, by simpa using he⟩
    rw [doLoopB, hok attempt]
    simp only [he]
  | succ b ih =>
    intro attempt
    obtain ⟨e, he⟩ := checkResponseError_not2xx (resps attempt)
      (by rw [h503 attempt]; decide)
    obtain ⟨e2, he2, hc2⟩ := ih (attempt + 1)
    refine ⟨e2, ?_, by rw [show attempt + (b + 1) = attempt + 1 + b by omega]; exact hc2⟩
    rw [doLoopB, hok attempt]
    simp only [he]
    have harith : attempt + 1 + b + 1 = attempt + (b + 1) + 1 := by omega
    by_cases hrl : isRateLimit e = true
    · rw [if_pos hrl, he2, harith]
    · rw [if_neg hrl, if_pos (h503 attempt), he2, harith]

/-! ## C1: a 503-on-every-attempt endpoint exhausts exactly max(N,1) attempts -/

/-- C1: for every retry-policy value `N ≥ 0`, a call against an endpoint that
returns HTTP 503 on every attempt performs exactly `max N 1` attempts, and
the result is the classified error of the final response — never a success
and never a raw transport error. -/
theorem c1_always503_exhausts_retries (N : Int) (hN : 0 ≤ N)
    (send : Nat → Except String Response) (resps : Nat → Response)
    (hok : ∀ k, send k = .ok (resps k)) (h503 : ∀ k, (resps k).statusCode = 503) :
    ∃ e, doGetHeaders N send = .apiError e (max N 1).toNat ∧
      CheckResponseError (resps ((max N 1).toNat - 1)) = some e := by
  obtain ⟨e, he, hc⟩ := doLoopB_all503 send resps hok h503 (N - 1).toNat 0
  have h1 : (max N 1).toNat = 0 + (N - 1).toNat + 1 := by omega
  have h2 : (max N 1).toNat - 1 = 0 + (N - 1).toNat := by omega
  exact ⟨e, by rw [doGetHeaders_eq_doLoopB, he, h1], by rw [h2]; exact hc⟩

/-- Endpoint for the C1 witness: 503 with an empty body on every attempt. -/
def w1send : Nat → Except String Response := fun _ => .ok ⟨503, .empty, ""⟩

/-- Response stream underlying `w1send`. -/
def w1resps : Nat → Response := fun _ => ⟨503, .empty, ""⟩

/-- Witness for C1 at `N = 2`: both hypotheses hold and the call makes
exactly 2 attempts, ending in the classified 503 error. -/
theorem c1_witness :
    (0 : Int) ≤ 2 ∧
    (∃ e, doGetHeaders 2 w1send = .apiError e (max (2 : Int) 1).toNat ∧
      CheckResponseError (w1resps ((max (2 : Int) 1).toNat - 1)) = some e) :=
  ⟨by decide,
    c1_always503_exhausts_retries 2 (by decide) w1send w1resps
      (fun _ => rfl) (fun _ => rfl)⟩

/-! ## C4: decoding errors and the retry loop -/

/-- Endpoint for the C4 counterexample: every attempt yields a 503 whose
non-empty body fails to unmarshal. -/
def w4send : Nat → Except String Response :=
  fun _ => .ok ⟨503, .invalidJson "oops" "bad json", ""⟩

/-- Counterexample to C4: with a retry policy of 2, a response whose non-empty
body fails to parse is classified as a `ResponseDecodingError`, yet the call
performs 2 attempts — the decoding error on a 503-status response IS retried,
because the retry decision looks at `resp.StatusCode`, not at the error's
kind.  C4's "returns it without performing any retry … every status code
(including 503)" is therefore false. -/
theorem c4_counterexample :
    doGetHeaders 2 w4send = .apiError (.responseDecodingError "oops" "bad json" 503) 2 := by
  rw [doGetHeaders_eq_doLoopB]
  rfl

/-- C4 as amended: a response whose non-empty body fails to parse as the
structured error shape is classified as a `ResponseDecodingError` preserving
the body and the parse failure message, and for every retry-policy value the
transport returns it after a single attempt for every non-2xx status OTHER
than 503 (a 503-status response is retried on status alone, whatever its
classification). -/
theorem c4_amended (status : Int) (raw errMsg hdr : String) (N : Int)
    (send : Nat → Except String Response)
    (hs : send 0 = .ok ⟨status, .invalidJson raw errMsg, hdr⟩)
    (hnot2xx : ¬(200 ≤ status ∧ status < 300)) (hn503 : status ≠ 503) :
    CheckResponseError ⟨status, .invalidJson raw errMsg, hdr⟩ =
      some (.responseDecodingError raw errMsg status) ∧
    doGetHeaders N send = .apiError (.responseDecodingError raw errMsg status) 1 := by
  have hc : CheckResponseError ⟨status, .invalidJson raw errMsg, hdr⟩ =
      some (.responseDecodingError raw errMsg status) := by
    unfold CheckResponseError
    rw [if_neg hnot2xx]
  refine ⟨hc, ?_⟩
  rw [doGetHeaders_eq_doLoopB]
  cases hb : (N - 1).toNat with
  | zero =>
    rw [doLoopB, hs]
    simp only [hc]
  | succ b =>
    rw [doLoopB_succ_eq, hs]
    simp only [hc]
    rw [if_neg (by simp [isRateLimit]), if_neg hn503]

/-- Endpoint for the C4 witness: a 500 whose body fails to unmarshal. -/
def w4send2 : Nat → Except String Response :=
  fun _ => .ok ⟨500, .invalidJson "oops" "bad json", ""⟩

/-- Witness for the amended C4 at status 500 and retry policy 5: one attempt,
decoding error through. -/
theorem c4_witness :
    CheckResponseError ⟨500, .invalidJson "oops" "bad json", ""⟩ =
      some (.responseDecodingError "oops" "bad json" 500) ∧
    doGetHeaders 5 w4send2 = .apiError (.responseDecodingError "oops" "bad json" 500) 1 :=
  c4_amended 500 "oops" "bad json" "" 5 w4send2 rfl (by decide) (by decide)

/-! ## C5: network failures are fatal immediately and returned verbatim -/

/-- C5: whenever the HTTP client itself fails on the first attempt (no HTTP
response obtained), `doGetHeaders` returns that error verbatim after exactly
one attempt, for every retry-policy value — the error is not classified and
no retry happens. -/
theorem c5_transport_error_fatal (retries : Int) (send : Nat → Except String Response)
    (e : String) (h : send 0 = .error e) :
    doGetHeaders retries send = .transportError e 1 := by
  rw [doGetHeaders_eq_doLoopB, doLoopB, h]

/-- Endpoint for the C5 witness: the connection always fails. -/
def w5send : Nat → Except String Response := fun _ => .error "connection refused"

/-- Witness for C5 at retry policy 7. -/
theorem c5_witness : doGetHeaders 7 w5send = .transportError "connection refused" 1 :=
  c5_transport_error_fatal 7 w5send "connection refused" rfl

/-! ## C2: classification of 429 responses -/

/-- A 429 response carrying a parseable non-empty body and a Retry-After
header, for the C2 counterexample. -/
def w2resp : Response := ⟨429, .jsonParsed "codeX" "slow down", "3"⟩

/-- Counterexample to C2: a 429 response whose non-empty body parses as the
structured error shape is classified as a plain `ResponseError` — not a
`RateLimitError` — because the early return for parseable bodies bypasses
`wrapSpecificError`; the Retry-After header ("3" here) is never consulted.
C2's "regardless of its body" is therefore false. -/
theorem c2_counterexample :
    CheckResponseError w2resp = some (.responseError ⟨429, "slow down", []⟩) ∧
    (CheckResponseError w2resp).map isRateLimit = some false :=
  ⟨rfl, rfl⟩

/-- C2 as amended: only for a 429 response with an EMPTY body does the
classifier return a `RateLimitError`; its `RetryAfter` is the Retry-After
header parsed as a float and truncated toward zero to whole seconds, `0`
when the header is absent (`""`) or unparseable.  A 429 whose non-empty body
parses yields a plain `ResponseError` with the body's message, and one whose
non-empty body fails to parse yields a `ResponseDecodingError`. -/
theorem c2_amended (hdr code msg raw errMsg : String) :
    CheckResponseError ⟨429, .empty, hdr⟩ =
      some (.rateLimitError ⟨429, "", []⟩ (goParseFloatTrunc hdr)) ∧
    goParseFloatTrunc "" = 0 ∧
    goParseFloatTrunc "not-a-number" = 0 ∧
    goParseFloatTrunc "2" = 2 ∧
    goParseFloatTrunc "1.5" = 1 ∧
    CheckResponseError ⟨429, .jsonParsed code msg, hdr⟩ =
      some (.responseError ⟨429, msg, []⟩) ∧
    CheckResponseError ⟨429, .invalidJson raw errMsg, hdr⟩ =
      some (.responseDecodingError raw errMsg 429) :=
  ⟨rfl, rfl, rfl, rfl, rfl, rfl, rfl⟩

/-! ## C3: classification of 406 responses -/

/-- A 406 response whose body carries its own message, for the C3
counterexample. -/
def w3resp : Response := ⟨406, .jsonParsed "c" "body says something else", ""⟩

/-- Counterexample to C3: a 406 response whose non-empty body parses keeps
the body's message — the override to the standard reason phrase happens in
`wrapSpecificError`, which the parseable-body early return bypasses.  C3's
"even when the response body carried a different message" is therefore
false. -/
theorem c3_counterexample :
    CheckResponseError w3resp = some (.responseError ⟨406, "body says something else", []⟩) ∧
    "body says something else" ≠ statusText 406 :=
  ⟨rfl, by decide⟩

/-- C3 as amended: only for a 406 response with an EMPTY body is the message
overridden to the standard reason phrase "Not Acceptable"; when the body
parses, its own message is kept. -/
theorem c3_amended (hdr code msg : String) :
    CheckResponseError ⟨406, .empty, hdr⟩ =
      some (.responseError ⟨406, statusText 406, []⟩) ∧
    statusText 406 = "Not Acceptable" ∧
    CheckResponseError ⟨406, .jsonParsed code msg, hdr⟩ =
      some (.responseError ⟨406, msg, []⟩) :=
  ⟨rfl, rfl, rfl⟩

/-! ## C6: credentials on a non-https channel -/

/-- URL for the C6 counterexample: a plain-http request with no query. -/
def w6url : URL := ⟨"http", []⟩

/-- Counterexample to C6: the request built for a non-https URL is NOT
independent of the secret — `NewRequest` calls `SetBasicAuth` on every
request, so the `Authorization` header carries `Basic base64(key:secret)`
and two different secrets produce two different built requests.  The
credentials are therefore not used only as the signing key. -/
theorem c6_counterexample : ¬ specRequestIndependentOfSecret "ck" w6url := by
  intro h
  exact absurd (h "secretA" "secretB") (by decide)

/-- C6 as amended: for every request whose URL scheme is not "https", the
authentication step adds no credential query parameters and swaps the
client for the OAuth1 signing transport keyed by the credential pair — but
the built request already carries the credentials in its `Authorization`
header as HTTP Basic authentication, i.e. `"Basic " ++ base64(key:secret)`,
so the (base64-encoded) secret does appear in a header. -/
theorem c6_amended (app : App) (u : URL) (t : Transport) (h : u.scheme ≠ "https") :
    authStep app u t = (u, .oauthSigning app.customerKey app.customerSecret) ∧
    headerGet (NewRequest app u).headers "Authorization" =
      "Basic " ++ base64Encode (strBytes (app.customerKey ++ ":" ++ app.customerSecret)) := by
  constructor
  · unfold authStep
    rw [if_neg h]
  · rfl

/-- Witness for the amended C6 at a concrete http URL and credential pair. -/
theorem c6_witness :
    authStep ⟨"ck", "cs"⟩ w6url .plain = (w6url, .oauthSigning "ck" "cs") ∧
    headerGet (NewRequest ⟨"ck", "cs"⟩ w6url).headers "Authorization" =
      "Basic " ++ base64Encode (strBytes ("ck" ++ ":" ++ "cs")) :=
  c6_amended ⟨"ck", "cs"⟩ w6url .plain (by decide)

/-! ## C7: credentials on an https channel -/

theorem getAllParams_cons_eq (a : String × String) (q : List (String × String))
    (k : String) (h : a.1 = k) :
    getAllParams (a :: q) k = a.2 :: getAllParams q k := by
  simp [getAllParams, List.filter_cons, h]

theorem getAllParams_cons_ne (a : String × String) (q : List (String × String))
    (k : String) (h : ¬a.1 = k) :
    getAllParams (a :: q) k = getAllParams q k := by
  simp [getAllParams, List.filter_cons, h]

theorem setParam_cons_eq (a : String × String) (q : List (String × String))
    (k v : String) (h : a.1 = k) :
    setParam (a :: q) k v = setParam q k v := by
  simp [setParam, List.filter_cons, h]

theorem setParam_cons_ne (a : String × String) (q : List (String × String))
    (k v : String) (h : ¬a.1 = k) :
    setParam (a :: q) k v = a :: setParam q k v := by
  simp [setParam, List.filter_cons, h]

theorem getAllParams_setParam_same (q : List (String × String)) (k v : String) :
    getAllParams (setParam q k v) k = [v] := by
  induction q with
  | nil => simp [setParam, getAllParams, List.filter]
  | cons a q ih =>
    by_cases ha : a.1 = k
    · rw [setParam_cons_eq a q k v ha]
      exact ih
    · rw [setParam_cons_ne a q k v ha, getAllParams_cons_ne a _ k ha]
      exact ih

theorem getAllParams_setParam_other (q : List (String × String)) (k v k2 : String)
    (h : k2 ≠ k) : getAllParams (setParam q k v) k2 = getAllParams q k2 := by
  have h' : ¬((k, v).1 = k2) := fun e => h e.symm
  induction q with
  | nil =>
    show getAllParams [(k, v)] k2 = getAllParams [] k2
    rw [getAllParams_cons_ne _ _ _ h']
  | cons a q ih =>
    by_cases ha : a.1 = k
    · have ha2 : ¬(a.1 = k2) := by rw [ha]; exact fun e => h e.symm
      rw [setParam_cons_eq _ _ _ _ ha, ih, getAllParams_cons_ne _ _ _ ha2]
    · rw [setParam_cons_ne _ _ _ _ ha]
      by_cases hb : a.1 = k2
      · rw [getAllParams_cons_eq _ _ _ hb, getAllParams_cons_eq _ _ _ hb, ih]
      · rw [getAllParams_cons_ne _ _ _ hb, getAllParams_cons_ne _ _ _ hb, ih]

/-- C7: for every request whose URL scheme is "https", the authentication
step attaches the credentials by setting exactly the two query parameters
`consumer_key` and `consumer_secret` to the client's key and secret (every
other query key is untouched), and the transport is left as the plain
client — no request-signing transport is installed. -/
theorem c7_https_query_credentials (app : App) (u : URL) (h : u.scheme = "https") :
    getAllParams (authStep app u .plain).1.query "consumer_key" = [app.customerKey] ∧
    getAllParams (authStep app u .plain).1.query "consumer_secret" = [app.customerSecret] ∧
    (∀ k, k ≠ "consumer_key" → k ≠ "consumer_secret" →
      getAllParams (authStep app u .plain).1.query k = getAllParams u.query k) ∧
    (authStep app u .plain).2 = .plain := by
  unfold authStep
  rw [if_pos h]
  refine ⟨?_, ?_, ?_, rfl⟩
  · rw [getAllParams_setParam_other _ _ _ _ (by decide), getAllParams_setParam_same]
  · rw [getAllParams_setParam_same]
  · intro k hk1 hk2
    rw [getAllParams_setParam_other _ _ _ _ hk2, getAllParams_setParam_other _ _ _ _ hk1]

/-- URL for the C7 witness: https with one pre-existing query parameter. -/
def w7url : URL := ⟨"https", [("page", "2")]⟩

/-- Witness for C7 at a concrete https URL: the two credential parameters are
set, the pre-existing `page` parameter survives, and the transport stays
plain. -/
theorem c7_witness :
    getAllParams (authStep ⟨"ck", "cs"⟩ w7url .plain).1.query "consumer_key" = ["ck"] ∧
    getAllParams (authStep ⟨"ck", "cs"⟩ w7url .plain).1.query "consumer_secret" = ["cs"] ∧
    getAllParams (authStep ⟨"ck", "cs"⟩ w7url .plain).1.query "page" =
      getAllParams w7url.query "page" ∧
    (authStep ⟨"ck", "cs"⟩ w7url .plain).2 = .plain := by
  obtain ⟨h1, h2, h3, h4⟩ := c7_https_query_credentials ⟨"ck", "cs"⟩ w7url rfl
  exact ⟨h1, h2, h3 "page" (by decide) (by decide), h4⟩

/-! ## C8 and C9: the pagination parser -/

theorem linkRegexMatch_length (s : String) :
    (linkRegexMatch s).length = 0 ∨ (linkRegexMatch s).length = 3 := by
  rcases h : matchLink s.toList with _ | ⟨u, r⟩
  · left
    unfold linkRegexMatch
    rw [h]
    rfl
  · right
    unfold linkRegexMatch
    rw [h]
    rfl

/-- Every entry fails the source's arity guard `len(match) != 4`, since a
submatch slice has 0 or 3 entries. -/
theorem extractPaginationStep_guard4 (p : Pagination) (link : String) :
    extractPaginationStep 4 p link =
      .error (.responseDecodingError "" "could not extract pagination link header" 0) := by
  unfold extractPaginationStep
  rcases linkRegexMatch_length link with h | h <;>
    rw [if_pos (by omega : (linkRegexMatch link).length ≠ 4)]

/-- Counterexample to C8: an entry that is well-formed as `<URL>; rel="REL"`
but whose REL (`self`) is not one of the four recognized relations is NOT
silently ignored — the parser returns a `ResponseDecodingError`. -/
theorem c8_counterexample :
    extractPagination "<https://x/p?page=2>; rel=\"self\"" =
      .error (.responseDecodingError "" "could not extract pagination link header" 0) := rfl

/-- C8 as amended: an entry with an unrecognized REL does not match
`linkRegex` (whose alternation hard-codes prev/next/first/last), and the
parser then returns the "could not extract pagination link header" decoding
error instead of skipping the entry and continuing; indeed the arity guard
(`!= 4` against submatch slices of length 0 or 3) makes EVERY non-empty
entry list error out in this way. -/
theorem c8_amended (entries : List String) (p : Pagination) (h : entries ≠ []) :
    extractPaginationList 4 entries p =
      .error (.responseDecodingError "" "could not extract pagination link header" 0) ∧
    linkRegexMatch "<https://x>; rel=\"self\"" = [] ∧
    extractPagination "<https://x/a>; rel=\"self\", <https://x/b>; rel=\"next\"" =
      .error (.responseDecodingError "" "could not extract pagination link header" 0) := by
  refine ⟨?_, rfl, rfl⟩
  cases entries with
  | nil => exact absurd rfl h
  | cons e rest =>
    rw [extractPaginationList]
    rw [extractPaginationStep_guard4]

/-- Witness for the amended C8 on a one-entry list with an unrecognized
relation name. -/
theorem c8_witness :
    extractPaginationList 4 ["<https://x/q?page=9>; rel=\"self\""] {} =
      .error (.responseDecodingError "" "could not extract pagination link header" 0) ∧
    linkRegexMatch "<https://x>; rel=\"self\"" = [] ∧
    extractPagination "<https://x/a>; rel=\"self\", <https://x/b>; rel=\"next\"" =
      .error (.responseDecodingError "" "could not extract pagination link header" 0) :=
  c8_amended ["<https://x/q?page=9>; rel=\"self\""] {} (List.cons_ne_nil _ _)

/-- C9: evaluating the parser at the claim's own header shows the bug.  As
written (arity guard `!= 4`), `extractPagination` rejects the header with a
decoding error instead of producing the claimed pagination; with the guard
at the 3-entry arity that `FindStringSubmatch` actually returns — the arity
the source's own comment documents — the very same code yields exactly the
claimed `next.page = 2`, `last.page = 5`, `prev`/`first` absent. -/
theorem c9_link_header_example :
    extractPagination
        "<https://x/wc/v3/products?page=2>; rel=\"next\", <https://x/wc/v3/products?page=5>; rel=\"last\"" =
      .error (.responseDecodingError "" "could not extract pagination link header" 0) ∧
    extractPaginationFixed
        "<https://x/wc/v3/products?page=2>; rel=\"next\", <https://x/wc/v3/products?page=5>; rel=\"last\"" =
      .ok { nextPageOptions := some { page := 2 }, previousPageOptions := none,
            firstPageOptions := none, lastPageOptions := some { page := 5 } } :=
  ⟨rfl, rfl⟩

/-! ## C10: concurrent calls do not corrupt each other's outcomes -/

theorem doLoop_transport (send : Nat → Except String Response) (retries : Int) (idx : Nat)
    (e : String) (hs : send idx = .error e) :
    doLoop send retries idx = .transportError e (idx + 1) := by
  rw [doLoop, hs]

theorem doLoop_break (send : Nat → Except String Response) (retries : Int) (idx : Nat)
    (resp : Response) (hs : send idx = .ok resp) (hc : CheckResponseError resp = none) :
    doLoop send retries idx = .ok resp (idx + 1) := by
  rw [doLoop, hs]
  simp only [hc]

theorem doLoop_return (send : Nat → Except String Response) (retries : Int) (idx : Nat)
    (resp : Response) (err : RespErr) (hs : send idx = .ok resp)
    (hc : CheckResponseError resp = some err)
    (h : retries ≤ 1 ∨ (isRateLimit err = false ∧ resp.statusCode ≠ 503)) :
    doLoop send retries idx = .apiError err (idx + 1) := by
  rw [doLoop, hs]
  simp only [hc]
  rcases h with h | ⟨hrl, h503⟩
  · rw [if_pos h]
  · by_cases hr : retries ≤ 1
    · rw [if_pos hr]
    · rw [if_neg hr, if_neg (by simp [hrl]), if_neg h503]

theorem doLoop_retry (send : Nat → Except String Response) (retries : Int) (idx : Nat)
    (resp : Response) (err : RespErr) (hs : send idx = .ok resp)
    (hc : CheckResponseError resp = some err) (hr : ¬retries ≤ 1)
    (hretry : isRateLimit err = true ∨ resp.statusCode = 503) :
    doLoop send retries idx = doLoop send (retries - 1) (idx + 1) := by
  conv_lhs => rw [doLoop]
  rw [hs]
  simp only [hc]
  rw [if_neg hr]
  rcases hretry with h | h
  · rw [if_pos h]
  · by_cases hrl : isRateLimit err = true
    · rw [if_pos hrl]
    · rw [if_neg hrl, if_pos h]

theorem soloRun_finished_fix (cfg : Int) (send : Nat → Except String Response) (r : DoResult) :
    ∀ (n : Nat) (retries : Int) (idx : Nat),
      soloRun cfg send n ⟨retries, idx, .finished r⟩ = ⟨retries, idx, .finished r⟩ := by
  intro n
  induction n with
  | zero => intro _ _; rfl
  | succ n ih =>
    intro retries idx
    rw [soloRun]
    exact ih retries idx

/-- A call that finishes when stepped alone from inside the loop finishes
with exactly the `doLoop` outcome. -/
theorem soloRun_looping_outcome (cfg : Int) (send : Nat → Except String Response) :
    ∀ (n : Nat) (retries : Int) (idx : Nat) (r : DoResult),
      (soloRun cfg send n ⟨retries, idx, .looping⟩).phase = .finished r →
      r = doLoop send retries idx := by
  intro n
  induction n with
  | zero =>
    intro retries idx r h
    rw [soloRun] at h
    cases h
  | succ n ih =>
    intro retries idx r h
    rw [soloRun] at h
    have hcs : callStep cfg send ⟨retries, idx, .looping⟩ = iterStep send retries idx := rfl
    rw [hcs] at h
    cases hs : send idx with
    | error e =>
      have hi : iterStep send retries idx =
          ⟨retries, idx + 1, .finished (.transportError e (idx + 1))⟩ := by
        rw [iterStep, hs]
      rw [hi, soloRun_finished_fix] at h
      cases h
      exact (doLoop_transport send retries idx e hs).symm
    | ok resp =>
      cases hc : CheckResponseError resp with
      | none =>
        have hi : iterStep send retries idx =
            ⟨retries, idx + 1, .finished (.ok resp (idx + 1))⟩ := by
          rw [iterStep, hs]
          simp only [hc]
        rw [hi, soloRun_finished_fix] at h
        cases h
        exact (doLoop_break send retries idx resp hs hc).symm
      | some err =>
        by_cases hr : retries ≤ 1
        · have hi : iterStep send retries idx =
              ⟨retries, idx + 1, .finished (.apiError err (idx + 1))⟩ := by
            rw [iterStep, hs]
            simp only [hc]
            rw [if_pos hr]
          rw [hi, soloRun_finished_fix] at h
          cases h
          exact (doLoop_return send retries idx resp err hs hc (Or.inl hr)).symm
        · by_cases hrl : isRateLimit err = true
          · have hi : iterStep send retries idx = ⟨retries - 1, idx + 1, .looping⟩ := by
              rw [iterStep, hs]
              simp only [hc]
              rw [if_neg hr, if_pos hrl]
            rw [hi] at h
            rw [ih (retries - 1) (idx + 1) r h]
            exact (doLoop_retry send retries idx resp err hs hc hr (Or.inl hrl)).symm
          · by_cases h503 : resp.statusCode = 503
            · have hi : iterStep send retries idx = ⟨retries - 1, idx + 1, .looping⟩ := by
                rw [iterStep, hs]
                simp only [hc]
                rw [if_neg hr, if_neg hrl, if_pos h503]
              rw [hi] at h
              rw [ih (retries - 1) (idx + 1) r h]
              exact (doLoop_retry send retries idx resp err hs hc hr (Or.inr h503)).symm
            · have hi : iterStep send retries idx =
                  ⟨retries, idx + 1, .finished (.apiError err (idx + 1))⟩ := by
                rw [iterStep, hs]
                simp only [hc]
                rw [if_neg hr, if_neg hrl, if_neg h503]
              rw [hi, soloRun_finished_fix] at h
              cases h
              exact (doLoop_return send retries idx resp err hs hc
                (Or.inr ⟨Bool.eq_false_iff.mpr hrl, h503⟩)).symm

/-- A call whose solo execution finishes has exactly the `doGetHeaders`
outcome. -/
theorem soloRun_ready_outcome (cfg : Int) (send : Nat → Except String Response)
    (n : Nat) (r : DoResult) (h : (soloRun cfg send n initCall).phase = .finished r) :
    r = doGetHeaders cfg send := by
  cases n with
  | zero =>
    rw [soloRun] at h
    cases h
  | succ n =>
    rw [soloRun] at h
    have hcs : callStep cfg send initCall = ⟨cfg, 0, .looping⟩ := rfl
    rw [hcs] at h
    rw [soloRun_looping_outcome cfg send n cfg 0 r h]
    rfl

/-- Call 1's component of the interleaved run is exactly its solo run for as
many of its own steps as the schedule granted it: the other call's steps
touch only the shared `c.attempts` field and call 2's own state. -/
theorem runSched_call1 (cfg1 cfg2 : Int) (send1 send2 : Nat → Except String Response) :
    ∀ (sched : List Bool) (s : SysState),
      (runSched cfg1 cfg2 send1 send2 sched s).call1 =
        soloRun cfg1 send1 (sched.count true) s.call1 := by
  intro sched
  induction sched with
  | nil => intro s; rfl
  | cons b rest ih =>
    intro s
    rw [runSched, ih]
    cases b with
    | true =>
      have hc : (true :: rest).count true = rest.count true + 1 := by
        simp [List.count_cons]
      rw [hc]
      rfl
    | false =>
      have hc : (false :: rest).count true = rest.count true := by
        simp [List.count_cons]
      rw [hc]
      rfl

/-- Symmetric projection for call 2, counting its own (`false`) steps. -/
theorem runSched_call2 (cfg1 cfg2 : Int) (send1 send2 : Nat → Except String Response) :
    ∀ (sched : List Bool) (s : SysState),
      (runSched cfg1 cfg2 send1 send2 sched s).call2 =
        soloRun cfg2 send2 (sched.count false) s.call2 := by
  intro sched
  induction sched with
  | nil => intro s; rfl
  | cons b rest ih =>
    intro s
    rw [runSched, ih]
    cases b with
    | true =>
      have hc : (true :: rest).count false = rest.count false := by
        simp [List.count_cons]
      rw [hc]
      rfl
    | false =>
      have hc : (false :: rest).count false = rest.count false + 1 := by
        simp [List.count_cons]
      rw [hc]
      rfl

/-- C10: two concurrent calls sharing one client, each with its own
call-scoped state, do not corrupt each other's retry counters: under EVERY
interleaving, whenever a call completes, its outcome is exactly the outcome
`doGetHeaders` produces for that call run alone — in particular a call
configured to exhaust its retries and a call succeeding on its first attempt
each behave independently of the schedule.  (The client-scoped `c.attempts`
field is written by both calls, but no retry decision reads it.) -/
theorem c10_interleaving_independent (cfg1 cfg2 : Int)
    (send1 send2 : Nat → Except String Response) (sched : List Bool) (r1 r2 : DoResult)
    (h1 : (runSched cfg1 cfg2 send1 send2 sched initSys).call1.phase = .finished r1)
    (h2 : (runSched cfg1 cfg2 send1 send2 sched initSys).call2.phase = .finished r2) :
    r1 = doGetHeaders cfg1 send1 ∧ r2 = doGetHeaders cfg2 send2 := by
  rw [runSched_call1] at h1
  rw [runSched_call2] at h2
  exact ⟨soloRun_ready_outcome cfg1 send1 (sched.count true) r1 h1,
    soloRun_ready_outcome cfg2 send2 (sched.count false) r2 h2⟩

/-- Endpoint for call 2 of the C10 witness: 200 with empty body — success on
the first attempt. -/
def w10send2 : Nat → Except String Response := fun _ => .ok ⟨200, .empty, ""⟩

/-- A concrete interleaving of the two calls' steps for the C10 witness. -/
def w10sched : List Bool := [true, false, true, false, true]

/-- Witness for C10: under the interleaved schedule, call 1 (retry policy 2
against an all-503 endpoint) finishes with the classified 503 error after 2
attempts and call 2 (policy 0 against a 200 endpoint) succeeds on its first
attempt — exactly their solo `doGetHeaders` outcomes. -/
theorem c10_witness :
    (runSched 2 0 w1send w10send2 w10sched initSys).call1.phase =
      .finished (.apiError (.responseError ⟨503, "", []⟩) 2) ∧
    (runSched 2 0 w1send w10send2 w10sched initSys).call2.phase =
      .finished (.ok ⟨200, .empty, ""⟩ 1) ∧
    DoResult.apiError (.responseError ⟨503, "", []⟩) 2 = doGetHeaders 2 w1send ∧
    DoResult.ok ⟨200, .empty, ""⟩ 1 = doGetHeaders 0 w10send2 := by
  have h1 : (runSched 2 0 w1send w10send2 w10sched initSys).call1.phase =
      .finished (.apiError (.responseError ⟨503, "", []⟩) 2) := rfl
  have h2 : (runSched 2 0 w1send w10send2 w10sched initSys).call2.phase =
      .finished (.ok ⟨200, .empty, ""⟩ 1) := rfl
  obtain ⟨g1, g2⟩ := c10_interleaving_independent 2 0 w1send w10send2 w10sched _ _ h1 h2
  exact ⟨h1, h2, g1, g2⟩

end Woo
